import Mathlib

/-!
Verification of the Travlr authentication flow and trips controllers.

Shallow embedding of:
* `app_api/models/user.js` — the user schema (mongoose setters, pre-save
  normalization hook), `setPassword`, `validPassword`, `generateJwt`;
* `config/passport.js` — the passport local strategy callback;
* `app_api/controllers/authentication.js` — `register` and `login`;
* `app_api/controllers/trips.js` — `tripsList` and `tripsFindByCode`.

External collaborators (the Node `crypto` module's `pbkdf2Sync`/`randomBytes`
and the HMAC-SHA256 primitive inside `jsonwebtoken`) are modelled as explicit
function/byte-list parameters: the code treats them as opaque primitives, and
every theorem quantifies over them.  Strings are modelled through their
`List Char` data, and "bytes" as `Nat` code points (`Char.toNat`); this is the
standard ASCII/Latin-1 simplification of Node's UTF-8 buffers.
-/

/-! ## Characters, whitespace, lowercasing, hex -/

/-- JavaScript whitespace characters relevant to `String.prototype.trim`
(space, tab, newline, carriage return). -/
def isWs (c : Char) : Bool :=
  c = ' ' || c = '\t' || c = '\n' || c = '\r'

/-- ASCII lower-casing of one character, as performed by
`String.prototype.toLowerCase` / mongoose's `lowercase: true` setter on
ASCII input. -/
def asciiLowerChar (c : Char) : Char :=
  if 65 ≤ c.toNat ∧ c.toNat ≤ 90 then Char.ofNat (c.toNat + 32) else c

/-- Lower-case a whole character list. -/
def asciiLowerChars (l : List Char) : List Char :=
  l.map asciiLowerChar

/-- `String.prototype.trim`: drop leading and trailing whitespace. -/
def trimChars (l : List Char) : List Char :=
  ((l.dropWhile isWs).reverse.dropWhile isWs).reverse

/-- One lower-case hex digit, as in Node `Buffer.toString("hex")`. -/
def hexDigit (n : Nat) : Char :=
  let m := n % 16
  if m < 10 then Char.ofNat (48 + m) else Char.ofNat (87 + m)

/-- Hex rendering of a byte list, as in `Buffer.toString("hex")`:
two lower-case hex digits per byte. -/
def bytesToHexChars : List Nat → List Char
  | [] => []
  | b :: bs => hexDigit (b / 16) :: hexDigit (b % 16) :: bytesToHexChars bs

/-- Hex rendering of a byte list as a string. -/
def bytesToHex (bs : List Nat) : String :=
  ⟨bytesToHexChars bs⟩

/-! ## base64url (RFC 7515, no padding), as used for JWT segments -/

/-- The base64url alphabet: index 0–25 ↦ A–Z, 26–51 ↦ a–z, 52–61 ↦ 0–9,
62 ↦ -, 63 ↦ _.  The index is reduced mod 64 so the function is total. -/
def b64Char (n : Nat) : Char :=
  let i := n % 64
  if i < 26 then Char.ofNat (65 + i)
  else if i < 52 then Char.ofNat (97 + (i - 26))
  else if i < 62 then Char.ofNat (48 + (i - 52))
  else if i = 62 then '-' else '_'

/-- Inverse of the base64url alphabet. -/
def b64Index (c : Char) : Option Nat :=
  if 65 ≤ c.toNat ∧ c.toNat ≤ 90 then some (c.toNat - 65)
  else if 97 ≤ c.toNat ∧ c.toNat ≤ 122 then some (c.toNat - 97 + 26)
  else if 48 ≤ c.toNat ∧ c.toNat ≤ 57 then some (c.toNat - 48 + 52)
  else if c = '-' then some 62
  else if c = '_' then some 63
  else none

/-- Whether a character belongs to the base64url alphabet. -/
def isB64UrlChar (c : Char) : Bool :=
  (b64Index c).isSome

/-- base64url encoding without padding: 3 bytes become 4 alphabet
characters; a final 1- or 2-byte group becomes 2 or 3 characters. -/
def b64urlEncode : List Nat → List Char
  | [] => []
  | [a] => [b64Char (a / 4), b64Char (a % 4 * 16)]
  | [a, b] => [b64Char (a / 4), b64Char (a % 4 * 16 + b / 16), b64Char (b % 16 * 4)]
  | a :: b :: c :: rest =>
    b64Char (a / 4) :: b64Char (a % 4 * 16 + b / 16) ::
      b64Char (b % 16 * 4 + c / 64) :: b64Char (c % 64) :: b64urlEncode rest

/-- base64url decoding without padding; inverse of `b64urlEncode` on byte
lists (values < 256). -/
def b64urlDecode : List Char → Option (List Nat)
  | [] => some []
  | [w, x] =>
    match b64Index w, b64Index x with
    | some i, some j => some [i * 4 + j / 16]
    | _, _ => none
  | [w, x, y] =>
    match b64Index w, b64Index x, b64Index y with
    | some i, some j, some k => some [i * 4 + j / 16, j % 16 * 16 + k / 4]
    | _, _, _ => none
  | w :: x :: y :: z :: rest =>
    match b64Index w, b64Index x, b64Index y, b64Index z, b64urlDecode rest with
    | some i, some j, some k, some l, some tail =>
      some ((i * 4 + j / 16) :: (j % 16 * 16 + k / 4) :: (k % 4 * 64 + l) :: tail)
    | _, _, _, _, _ => none
  | [_] => none

/-! ## JSON payload serialization (the subset `JSON.stringify` emits for the
JWT claims object) and its parser (the subset of `JSON.parse` reached when
`jsonwebtoken` decodes a token this code minted). -/

/-- Opening brace character (code 123). -/
def lbrace : Char := Char.ofNat 123

/-- Closing brace character (code 125). -/
def rbrace : Char := Char.ofNat 125

/-- Backslash character (code 92). -/
def bslash : Char := Char.ofNat 92

/-- JSON string-content escaping as performed by `JSON.stringify`: a double
quote or backslash is preceded by a backslash.  (Control characters, which
`JSON.stringify` also escapes, are passed through: they do not occur in the
identity fields this application serializes.) -/
def escapeJson : List Char → List Char
  | [] => []
  | c :: cs =>
    if c = '"' ∨ c = bslash then bslash :: c :: escapeJson cs
    else c :: escapeJson cs

/-- Parse the body of a JSON string up to its closing quote, undoing
`escapeJson`; returns the decoded content and the rest of the input. -/
def parseStrBody : List Char → Option (List Char × List Char)
  | [] => none
  | c :: rest =>
    if c = '"' then some ([], rest)
    else if c = bslash then
      match rest with
      | [] => none
      | d :: rest2 =>
        match parseStrBody rest2 with
        | none => none
        | some (s, r) => some (d :: s, r)
    else
      match parseStrBody rest with
      | none => none
      | some (s, r) => some (c :: s, r)

/-- Consume an expected literal prefix. -/
def parseLit : List Char → List Char → Option (List Char)
  | [], l => some l
  | _ :: _, [] => none
  | c :: cs, d :: ds => if c = d then parseLit cs ds else none

/-- One decimal digit character (the digit is reduced mod 10 so the
function is total). -/
def digitChar (d : Nat) : Char := Char.ofNat (48 + d % 10)

/-- Decimal rendering of a natural number, most significant digit first,
as `JSON.stringify` emits numbers. -/
def natChars (n : Nat) : List Char :=
  if n = 0 then ['0'] else (Nat.digits 10 n).reverse.map digitChar

/-- Consume a run of decimal digits, folding them onto an accumulator. -/
def parseNatChars : List Char → Nat → Nat × List Char
  | [], acc => (acc, [])
  | c :: rest, acc =>
    if 48 ≤ c.toNat ∧ c.toNat ≤ 57 then parseNatChars rest (acc * 10 + (c.toNat - 48))
    else (acc, c :: rest)

/-- The JWT claims payload actually signed for `generateJwt` in `user.js`:
the four fields of the payload object `{_id, email, name, exp}` plus the
default `iat` (issued-at) claim that `jsonwebtoken` appends in `jwt.sign` —
`user.js` passes no `noTimestamp` option — as the last key of the copied
payload object. -/
structure JwtClaims where
  _id : String
  email : String
  name : String
  exp : Nat
  iat : Nat
deriving DecidableEq

/-- `"<key>":` as characters, for a plain-ASCII key. -/
def keyChars (s : String) : List Char :=
  '"' :: s.data ++ ['"', ':']

/-- A JSON string literal with `JSON.stringify` escaping. -/
def jsonStrChars (s : String) : List Char :=
  '"' :: escapeJson s.data ++ ['"']

/-- `JSON.stringify` of the signed claims object in insertion order —
`_id`, `email`, `name`, `exp` from the payload literal of `generateJwt`,
then the `iat` claim `jsonwebtoken` appended last. -/
def serializeClaims (c : JwtClaims) : List Char :=
  lbrace :: (keyChars "_id" ++ jsonStrChars c._id ++
    [','] ++ keyChars "email" ++ jsonStrChars c.email ++
    [','] ++ keyChars "name" ++ jsonStrChars c.name ++
    [','] ++ keyChars "exp" ++ natChars c.exp ++
    [','] ++ keyChars "iat" ++ natChars c.iat ++ [rbrace])

/-- The payload the spec describes for the token, stated for comparison with the
code: "claims = \x7b_id, email, name, exp\x7d" — a serialization of exactly
those four fields, without the `iat` claim the configured `jsonwebtoken`
actually adds. -/
def serializeClaimsSpec (pid pemail pname : String) (pexp : Nat) : List Char :=
  lbrace :: (keyChars "_id" ++ jsonStrChars pid ++
    [','] ++ keyChars "email" ++ jsonStrChars pemail ++
    [','] ++ keyChars "name" ++ jsonStrChars pname ++
    [','] ++ keyChars "exp" ++ natChars pexp ++ [rbrace])

/-- The subset of `JSON.parse` reached when decoding a payload produced by
`serializeClaims`: parse `{_id, email, name, exp, iat}` in that fixed
order. -/
def deserializeClaims (l : List Char) : Option JwtClaims :=
  match parseLit (lbrace :: keyChars "_id" ++ ['"']) l with
  | none => none
  | some l1 =>
  match parseStrBody l1 with
  | none => none
  | some (idc, l2) =>
  match parseLit (',' :: keyChars "email" ++ ['"']) l2 with
  | none => none
  | some l3 =>
  match parseStrBody l3 with
  | none => none
  | some (emc, l4) =>
  match parseLit (',' :: keyChars "name" ++ ['"']) l4 with
  | none => none
  | some l5 =>
  match parseStrBody l5 with
  | none => none
  | some (nmc, l6) =>
  match parseLit (',' :: keyChars "exp") l6 with
  | none => none
  | some l7 =>
  match parseNatChars l7 0 with
  | (n, l8) =>
  match parseLit (',' :: keyChars "iat") l8 with
  | none => none
  | some l9 =>
  match parseNatChars l9 0 with
  | (m, l10) =>
  match l10 with
  | [r] => if r = rbrace then some ⟨⟨idc⟩, ⟨emc⟩, ⟨nmc⟩, n, m⟩ else none
  | _ => none

/-! ## Compact JWT: sign, split, verify (model of the `jsonwebtoken`
library as configured by this application: HS256, string secret). -/

/-- The base64url-encoded segments of the default `jsonwebtoken` header
`{"alg":"HS256","typ":"JWT"}`. -/
def jwtHeaderChars : List Char :=
  lbrace :: "\"alg\":\"HS256\",\"typ\":\"JWT\"".data ++ [rbrace]

/-- `jwt.sign(payload, secret)` for a string secret (HS256): the compact
serialization `base64url(header).base64url(payload).base64url(hmac)` where
the MAC is computed by the opaque HMAC-SHA256 primitive `hmac` over the
signing input `header.payload`. -/
def jwtSignChars (hmac : String → String → List Nat) (payload : List Char)
    (secret : String) : List Char :=
  let hp := b64urlEncode (jwtHeaderChars.map Char.toNat) ++
    '.' :: b64urlEncode (payload.map Char.toNat)
  hp ++ '.' :: b64urlEncode (hmac secret ⟨hp⟩)

/-- Split a character list at every dot, as `token.split(".")`. -/
def splitDots : List Char → List (List Char)
  | [] => [[]]
  | c :: rest =>
    if c = '.' then [] :: splitDots rest
    else
      match splitDots rest with
      | [] => [[c]]
      | g :: gs => (c :: g) :: gs

/-- `jwt.verify(token, secret)` at clock time `nowSec` (seconds): split the
compact serialization into three segments, recompute the HS256 MAC over
`header.payload` and compare, decode the payload, and reject an expired
`exp` claim (`exp ≤ now` is expired). -/
def jwtVerify (hmac : String → String → List Nat) (token secret : String)
    (nowSec : Nat) : Option JwtClaims :=
  match splitDots token.data with
  | [h, p, s] =>
    if s = b64urlEncode (hmac secret ⟨h ++ '.' :: p⟩) then
      match b64urlDecode p with
      | none => none
      | some bytes =>
        match deserializeClaims (bytes.map Char.ofNat) with
        | none => none
        | some c => if c.exp ≤ nowSec then none else some c
    else none
  | _ => none

/-! ## The user model (`user.js`): schema setters, pre-save hook,
`setPassword`, `validPassword`, `generateJwt` -/

/-- A document of the `users` collection: `_id`, `email`, `name`,
`hash`, `salt`. -/
structure UserRecord where
  _id : String
  email : String
  name : String
  hash : String
  salt : String
deriving DecidableEq

/-- The mongoose setter chain for `email` (`lowercase: true, trim: true`):
applied at assignment time, before any save. -/
def setEmail (s : String) : String :=
  ⟨asciiLowerChars (trimChars s.data)⟩

/-- The mongoose setter for `name` (`trim: true`). -/
def setName (s : String) : String :=
  ⟨trimChars s.data⟩

/-- Modelled from the library `validator.escape` (code not in `src/`):
replace `&`, `<`, `>`, `"`, the apostrophe, the backtick, the backslash
and `/` by their HTML entities. -/
def escapeHtmlChar (c : Char) : List Char :=
  if c = '&' then "&amp;".data
  else if c = '<' then "&lt;".data
  else if c = '>' then "&gt;".data
  else if c = '"' then "&quot;".data
  else if c = Char.ofNat 39 then "&#x27;".data
  else if c = Char.ofNat 96 then "&#96;".data
  else if c = bslash then "&#x5C;".data
  else if c = '/' then "&#x2F;".data
  else [c]

/-- Concatenate a list of character lists. -/
def concatAll : List (List Char) → List Char
  | [] => []
  | x :: xs => x ++ concatAll xs

/-- HTML-escape a whole character list (`validator.escape`). -/
def escapeHtmlChars (l : List Char) : List Char :=
  concatAll (l.map escapeHtmlChar)

/-- Modelled from the library `validator.normalizeEmail` with
`all_lowercase: true` (code not in `src/`): lower-case the address, and for
a `gmail.com` domain remove the dots of the local part.  The remaining
provider-specific rewrites of the library are elided. -/
def normalizeEmailChars (l : List Char) : List Char :=
  let low := asciiLowerChars l
  if low.contains '@' then
    let domain := (low.reverse.takeWhile (fun c => c ≠ '@')).reverse
    let locpart := low.take (low.length - domain.length - 1)
    if domain = "gmail.com".data then
      locpart.filter (fun c => c ≠ '.') ++ '@' :: domain
    else
      locpart ++ '@' :: domain
  else low

/-- Modelled from the library `validator.isEmail` (code not in `src/`),
restricted to the aspects used below: an email contains an `@`, contains no
whitespace, and has a nonempty local part and domain. -/
def isEmailModel (l : List Char) : Bool :=
  l.contains '@' && !(l.any isWs) &&
    !(l.head? = some '@') && !(l.getLast? = some '@')

/-- The `pre("save")` hook of `userSchema`: normalize the email and
HTML-escape the trimmed name. -/
def preSave (u : UserRecord) : UserRecord :=
  { u with
    email := ⟨normalizeEmailChars u.email.data⟩,
    name := ⟨escapeHtmlChars (trimChars u.name.data)⟩ }

/-- `userSchema.methods.setPassword`: store a fresh random salt
(`crypto.randomBytes(16)`, hex-encoded — the entropy source is the byte-list
parameter `rnd`) and the PBKDF2 hash of the password with that salt,
100000 iterations, 64-byte key length, SHA-512 digest.  The Node
`crypto.pbkdf2Sync` primitive (hex rendering included) is the opaque
parameter `pbkdf2`. -/
def setPassword (pbkdf2 : String → String → Nat → Nat → String → String)
    (rnd : List Nat) (u : UserRecord) (password : String) : UserRecord :=
  let salt := bytesToHex rnd
  { u with salt := salt, hash := pbkdf2 password salt 100000 64 "sha512" }

/-- `userSchema.methods.validPassword`: recompute the PBKDF2 hash of the
candidate password with the stored salt and the same parameters, and
compare with the stored hash. -/
def validPassword (pbkdf2 : String → String → Nat → Nat → String → String)
    (u : UserRecord) (password : String) : Bool :=
  u.hash == pbkdf2 password u.salt 100000 64 "sha512"

/-- `jwt.sign(payload, secret)` for the object payload
`{_id, email, name, exp}` and a string secret: the library copies the
payload and, since no `noTimestamp` option is passed, appends the default
`iat` (issued-at) claim `Math.floor(Date.now() / 1000)` as the last key,
stringifies, and HS256-signs the compact serialization. -/
def jwtSignObject (hmac : String → String → List Nat)
    (pid pemail pname : String) (pexp : Nat) (secret : String)
    (nowMs : Nat) : String :=
  ⟨jwtSignChars hmac (serializeClaims ⟨pid, pemail, pname, pexp, nowMs / 1000⟩)
    secret⟩

/-- `userSchema.methods.generateJwt` at clock time `nowMs` (milliseconds):
the expiry is 7 days from now (`expiry.setDate(expiry.getDate() + 7)`,
modelled in UTC as `nowMs + 7·86400000` ms) and
`exp = parseInt(expiry.getTime() / 1000)` truncates to whole seconds; the
token is `jwt.sign({_id, email, name, exp}, process.env.JWT_SECRET)`. -/
def generateJwt (hmac : String → String → List Nat) (u : UserRecord)
    (secret : String) (nowMs : Nat) : String :=
  jwtSignObject hmac u._id u.email u.name ((nowMs + 7 * 86400000) / 1000)
    secret nowMs

/-! ## The mongoose `save` boundary: validation, pre-save hook, unique
index on `email` -/

/-- Result of a `save` attempt. -/
inductive SaveResult where
  | ok (store : List UserRecord)
  | validationError
  | duplicateKeyError
deriving DecidableEq

/-- `user.save()`: mongoose first runs validation (here the `validator.isEmail`
check of the schema; `required`/`maxlength` are elided since they do not bear
on the claims below), then the user `pre("save")` hook, then the write, which
the unique index on `email` rejects when a stored record already carries the
same (normalized) email. -/
def save (store : List UserRecord) (u : UserRecord) : SaveResult :=
  if !(isEmailModel u.email.data) then .validationError
  else
    let v := preSave u
    if store.any (fun w => w.email == v.email) then .duplicateKeyError
    else .ok (store ++ [v])

/-! ## The authentication controllers (`authentication.js`) and the passport
local strategy (`passport.js`) -/

/-- The request body fields a register/login request may carry; a missing
field is `none`. -/
structure AuthRequest where
  name : Option String
  email : Option String
  password : Option String

/-- JavaScript truthiness of `req.body.<field>` for an optional string:
`undefined` and the empty string are falsy. -/
def truthyStr : Option String → Bool
  | none => false
  | some s => !(s == "")

/-- A JSON response body: a token object, a message object, or a serialized
error. -/
inductive ResBody where
  | token (t : String)
  | message (m : String)
  | jsError (e : String)
deriving DecidableEq

/-- An HTTP response: status code and JSON body. -/
structure HttpResponse where
  status : Nat
  body : ResBody
deriving DecidableEq

/-- Whether a response body carries a token. -/
def hasToken : ResBody → Bool
  | .token _ => true
  | _ => false

/-- `User.findOne({email})` against a pure store. -/
def findOne (store : List UserRecord) (email : String) : Option UserRecord :=
  store.find? (fun u => u.email == email)

/-- Outcome of the passport local strategy callback: `done(null, false, info)`
or `done(null, user)`.  (The `done(err)` branch is the store-failure path,
absent from this pure model.) -/
inductive AuthResult where
  | failure (info : String)
  | success (u : UserRecord)
deriving DecidableEq

/-- The `LocalStrategy` callback of `passport.js`: look the user up by email;
no user ⇒ failure "Incorrect username."; wrong password ⇒ failure
"Incorrect password."; else success. -/
def localStrategy (pbkdf2 : String → String → Nat → Nat → String → String)
    (store : List UserRecord) (email password : String) : AuthResult :=
  match findOne store email with
  | none => .failure "Incorrect username."
  | some u =>
    if !(validPassword pbkdf2 u password) then .failure "Incorrect password."
    else .success u

/-- The `login` controller: missing/empty email or password ⇒ 400
"All fields required"; then `passport.authenticate("local", ...)`: a user ⇒
200 with a fresh JWT, no user ⇒ 401 with the strategy's info message. -/
def login (pbkdf2 : String → String → Nat → Nat → String → String)
    (hmac : String → String → List Nat) (secret : String) (nowMs : Nat)
    (store : List UserRecord) (req : AuthRequest) : HttpResponse :=
  if !(truthyStr req.email) || !(truthyStr req.password) then
    ⟨400, .message "All fields required"⟩
  else
    match localStrategy pbkdf2 store (req.email.getD "") (req.password.getD "") with
    | .failure info => ⟨401, .message info⟩
    | .success u => ⟨200, .token (generateJwt hmac u secret nowMs)⟩

/-- The user document the `register` controller builds before saving:
`new User()` (with the fresh mongoose `_id`), the `name`/`email` assignments
(which run the schema setters), then `setPassword`. -/
def mkRegUser (pbkdf2 : String → String → Nat → Nat → String → String)
    (rnd : List Nat) (freshId name email password : String) : UserRecord :=
  setPassword pbkdf2 rnd
    { _id := freshId, email := setEmail email, name := setName name,
      hash := "", salt := "" }
    password

/-- The `register` controller: missing/empty name, email or password ⇒ 400
"All fields required"; otherwise build the user, mint the JWT (before
saving), then `await user.save()`: success ⇒ 200 with the token, failure ⇒
400 with the error.  Returns the response and the resulting store. -/
def register (pbkdf2 : String → String → Nat → Nat → String → String)
    (hmac : String → String → List Nat) (rnd : List Nat)
    (secret : String) (nowMs : Nat) (freshId : String)
    (store : List UserRecord) (req : AuthRequest) :
    HttpResponse × List UserRecord :=
  if !(truthyStr req.name) || !(truthyStr req.email) || !(truthyStr req.password) then
    (⟨400, .message "All fields required"⟩, store)
  else
    let u := mkRegUser pbkdf2 rnd freshId (req.name.getD "") (req.email.getD "")
      (req.password.getD "")
    let token := generateJwt hmac u secret nowMs
    match save store u with
    | .ok store2 => (⟨200, .token token⟩, store2)
    | .validationError => (⟨400, .jsError "ValidationError"⟩, store)
    | .duplicateKeyError => (⟨400, .jsError "E11000 duplicate key error"⟩, store)

/-! ## The trips controllers (`trips.js`) -/

/-- A document of the `trips` collection. -/
structure Trip where
  code : String
  name : String
  length : String
  start : String
  resort : String
  perPerson : String
  image : String
  description : String
deriving DecidableEq

/-- A trips-endpoint response body. -/
inductive TripsBody where
  | trips (l : List Trip)
  | jsError (e : String)
deriving DecidableEq

/-- An HTTP response of the trips endpoints. -/
structure TripsResponse where
  status : Nat
  body : TripsBody
deriving DecidableEq

/-- JavaScript truthiness of a Mongoose query result: `Model.find` resolves
to an array, and an array is an object, hence always truthy — `!q` is always
false. -/
def jsTruthyList (_ : List Trip) : Bool := true

/-- `tripsList`: `Model.find({})`, then `if (!q) 404 else 200 json(q)`. -/
def tripsList (db : List Trip) : TripsResponse :=
  let q := db
  if !(jsTruthyList q) then ⟨404, .jsError "No trips found"⟩
  else ⟨200, .trips q⟩

/-- `tripsFindByCode`: `Model.find({code})`, then
`if (!q) 404 else 200 json(q)`. -/
def tripsFindByCode (db : List Trip) (tripCode : String) : TripsResponse :=
  let q := db.filter (fun t => t.code == tripCode)
  if !(jsTruthyList q) then ⟨404, .jsError "Trip not found"⟩
  else ⟨200, .trips q⟩

/-! ## Named token segments -/

/-- The base64url-encoded header segment of every token this code mints. -/
def jwtHeaderSeg : List Char :=
  b64urlEncode (jwtHeaderChars.map Char.toNat)

/-- The base64url-encoded payload segment for a claims object. -/
def jwtPayloadSeg (cl : JwtClaims) : List Char :=
  b64urlEncode ((serializeClaims cl).map Char.toNat)

/-- The base64url-encoded HS256 signature segment over `header.payload`. -/
def jwtSigSeg (hmac : String → String → List Nat) (cl : JwtClaims)
    (secret : String) : List Char :=
  b64urlEncode (hmac secret ⟨jwtHeaderSeg ++ '.' :: jwtPayloadSeg cl⟩)

/-- The claims object `generateJwt` signs at clock time `nowMs`: the user's
`_id`, `email` and `name`, an expiry of the issuance time plus 7 days in
whole seconds, and the library-added `iat` claim, the issuance time in
whole seconds. -/
def claimsOf (u : UserRecord) (nowMs : Nat) : JwtClaims :=
  ⟨u._id, u.email, u.name, nowMs / 1000 + 604800, nowMs / 1000⟩

/-! ## Predicates used by the theorems -/

/-- A character whose code point fits in one byte (the Latin-1 range within
which the `Char`-code model of UTF-8 bytes is exact). -/
def byteOk (c : Char) : Bool := c.toNat < 256

/-- A string of one-byte characters. -/
def byteSafe (s : String) : Bool := s.data.all byteOk

/-- The store invariant of claim C8: the email is ASCII-lowercased and
trimmed, and the display name is the HTML-escape of some trimmed input. -/
def GoodUser (u : UserRecord) : Prop :=
  asciiLowerChars u.email.data = u.email.data ∧
  trimChars u.email.data = u.email.data ∧
  ∃ n, u.name.data = escapeHtmlChars (trimChars n)

/-! ## Helper lemmas -/

/-- `Char.toNat` of `Char.ofNat` for a valid code point. -/
theorem toNat_charOfNat {n : Nat} (h : n < 55296) : (Char.ofNat n).toNat = n := by
  have hv : n.isValidChar := Or.inl h
  simp [Char.ofNat, hv, Char.ofNatAux, Char.toNat, UInt32.toNat, BitVec.toNat_ofNatLt]

/-- The base64url alphabet is periodic with period 64. -/
theorem b64Char_mod (n : Nat) : b64Char n = b64Char (n % 64) := by
  unfold b64Char
  have h : n % 64 % 64 = n % 64 := by omega
  rw [h]

/-- The alphabet inverse recovers the index mod 64. -/
theorem b64Index_b64Char (n : Nat) : b64Index (b64Char n) = some (n % 64) := by
  have haux : ∀ i : Fin 64, b64Index (b64Char i.val) = some i.val := by decide
  have h : n % 64 < 64 := by omega
  rw [b64Char_mod]
  exact haux ⟨n % 64, h⟩

/-- Every alphabet character is recognized by `isB64UrlChar`. -/
theorem isB64UrlChar_b64Char (n : Nat) : isB64UrlChar (b64Char n) = true := by
  simp [isB64UrlChar, b64Index_b64Char]

/-- No alphabet character is the dot separator. -/
theorem b64Char_ne_dot (n : Nat) : b64Char n ≠ '.' := by
  intro h
  have h1 := b64Index_b64Char n
  rw [h] at h1
  simp [b64Index] at h1

/-- Every character emitted by `b64urlEncode` is an alphabet character. -/
theorem mem_b64urlEncode {c : Char} {bs : List Nat} (h : c ∈ b64urlEncode bs) :
    ∃ n, c = b64Char n := by
  induction bs using b64urlEncode.induct with
  | case1 => simp [b64urlEncode] at h
  | case2 a =>
    simp only [b64urlEncode, List.mem_cons, List.mem_singleton, List.not_mem_nil] at h
    rcases h with h | h | h
    · exact ⟨_, h⟩
    · exact ⟨_, h⟩
    · exact absurd h (by simp)
  | case3 a b =>
    simp only [b64urlEncode, List.mem_cons, List.not_mem_nil, or_false] at h
    rcases h with h | h | h
    · exact ⟨_, h⟩
    · exact ⟨_, h⟩
    · exact ⟨_, h⟩
  | case4 a b cc rest ih =>
    simp only [b64urlEncode, List.mem_cons] at h
    rcases h with h | h | h | h | h
    · exact ⟨_, h⟩
    · exact ⟨_, h⟩
    · exact ⟨_, h⟩
    · exact ⟨_, h⟩
    · exact ih h

/-- base64url decoding inverts base64url encoding on byte lists. -/
theorem b64urlDecode_b64urlEncode {bs : List Nat} (h : ∀ b ∈ bs, b < 256) :
    b64urlDecode (b64urlEncode bs) = some bs := by
  induction bs using b64urlEncode.induct with
  | case1 => rfl
  | case2 a =>
    have ha : a < 256 := h a (by simp)
    simp only [b64urlEncode, b64urlDecode, b64Index_b64Char, Option.some.injEq,
      List.cons.injEq, and_true]
    omega
  | case3 a b =>
    have ha : a < 256 := h a (by simp)
    have hb : b < 256 := h b (by simp)
    simp only [b64urlEncode, b64urlDecode, b64Index_b64Char, Option.some.injEq,
      List.cons.injEq, and_true]
    omega
  | case4 a b cc rest ih =>
    have ha : a < 256 := h a (by simp)
    have hb : b < 256 := h b (by simp)
    have hc : cc < 256 := h cc (by simp)
    have hrest : ∀ x ∈ rest, x < 256 := fun x hx => h x (by simp [hx])
    have hdec := ih hrest
    match hrest2 : b64urlEncode rest with
    | [] =>
      rw [hrest2] at hdec
      simp only [b64urlEncode, hrest2, b64urlDecode, b64Index_b64Char, hdec]
      simp only [b64urlDecode, Option.some.injEq] at hdec
      subst hdec
      simp only [Option.some.injEq, List.cons.injEq, and_true]
      omega
    | w :: ws =>
      rw [hrest2] at hdec
      simp only [b64urlEncode, hrest2]
      show b64urlDecode (b64Char (a / 4) :: b64Char (a % 4 * 16 + b / 16) ::
        b64Char (b % 16 * 4 + cc / 64) :: b64Char (cc % 64) :: w :: ws) = _
      simp only [b64urlDecode, b64Index_b64Char, hdec, Option.some.injEq,
        List.cons.injEq, and_true]
      omega

/-- Splitting consumes a dot-free prefix up to the first separator. -/
theorem splitDots_append_dot {a : List Char} (h : ∀ c ∈ a, c ≠ '.') (t : List Char) :
    splitDots (a ++ '.' :: t) = a :: splitDots t := by
  induction a with
  | nil => simp [splitDots]
  | cons c a' ih =>
    have hc : c ≠ '.' := h c (by simp)
    have h' : ∀ x ∈ a', x ≠ '.' := fun x hx => h x (by simp [hx])
    have ihr := ih h'
    simp only [List.cons_append, splitDots, hc, if_false]
    rw [show a'.append ('.' :: t) = a' ++ '.' :: t from rfl, ihr]

/-- Splitting a dot-free list yields a single segment. -/
theorem splitDots_no_dot {a : List Char} (h : ∀ c ∈ a, c ≠ '.') :
    splitDots a = [a] := by
  induction a with
  | nil => rfl
  | cons c a' ih =>
    have hc : c ≠ '.' := h c (by simp)
    have h' : ∀ x ∈ a', x ≠ '.' := fun x hx => h x (by simp [hx])
    simp only [splitDots, hc, if_false, ih h']

/-- Consuming an exact literal prefix succeeds and leaves the rest. -/
theorem parseLit_self (lit r : List Char) : parseLit lit (lit ++ r) = some r := by
  induction lit with
  | nil => rfl
  | cons c cs ih => simp [parseLit, ih]

/-- `parseStrBody` inverts `escapeJson` up to the closing quote. -/
theorem parseStrBody_escapeJson (s r : List Char) :
    parseStrBody (escapeJson s ++ '"' :: r) = some (s, r) := by
  induction s with
  | nil =>
    show parseStrBody ('"' :: r) = some ([], r)
    rw [parseStrBody.eq_def]
    simp
  | cons c cs ih =>
    by_cases h1 : c = '"'
    · subst h1
      simp +decide [escapeJson, parseStrBody, ih]
    · by_cases h2 : c = bslash
      · subst h2
        simp +decide [escapeJson, parseStrBody, ih]
      · have he : escapeJson (c :: cs) = c :: escapeJson cs := by
          simp [escapeJson, h1, h2]
        rw [he, List.cons_append, parseStrBody.eq_def]
        simp [h1, h2, ih]

/-- Code point of a digit character. -/
theorem toNat_digitChar (d : Nat) : (digitChar d).toNat = 48 + d % 10 :=
  toNat_charOfNat (by omega)

/-- Digit runs parse by Horner folding. -/
theorem parseNatChars_digits (ds : List Nat) (r : List Char) (acc : Nat)
    (h : ∀ d ∈ ds, d < 10) :
    parseNatChars (ds.map digitChar ++ r) acc =
      parseNatChars r (ds.foldl (fun a d => a * 10 + d) acc) := by
  induction ds generalizing acc with
  | nil => rfl
  | cons d ds ih =>
    have hd : d < 10 := h d (by simp)
    have h' : ∀ x ∈ ds, x < 10 := fun x hx => h x (by simp [hx])
    have hcond : 48 ≤ (digitChar d).toNat ∧ (digitChar d).toNat ≤ 57 := by
      rw [toNat_digitChar]
      omega
    simp only [List.map_cons, List.cons_append, parseNatChars, toNat_digitChar,
      List.foldl_cons]
    rw [if_pos (by omega : 48 ≤ 48 + d % 10 ∧ 48 + d % 10 ≤ 57)]
    rw [show (List.map digitChar ds).append r = List.map digitChar ds ++ r from rfl]
    rw [ih _ h']
    have harith : acc * 10 + (48 + d % 10 - 48) = acc * 10 + d := by omega
    rw [harith]

/-- Horner evaluation of reversed digit lists. -/
theorem foldl_reverse_digits (ds : List Nat) (acc : Nat) :
    ds.reverse.foldl (fun a d => a * 10 + d) acc =
      acc * 10 ^ ds.length + Nat.ofDigits 10 ds := by
  induction ds generalizing acc with
  | nil => simp [Nat.ofDigits]
  | cons d ds ih =>
    simp only [List.reverse_cons, List.foldl_append, List.foldl_cons, List.foldl_nil,
      ih, List.length_cons, Nat.ofDigits_cons]
    ring

/-- A trailing closing brace stops the digit run. -/
theorem parseNatChars_rbrace (acc : Nat) : parseNatChars [rbrace] acc = (acc, [rbrace]) := rfl

/-- Parsing the decimal rendering of `n` recovers `n`, for any trailing
input on which the digit run stops. -/
theorem parseNatChars_natChars (n : Nat) (r : List Char)
    (hstop : ∀ acc, parseNatChars r acc = (acc, r)) :
    parseNatChars (natChars n ++ r) 0 = (n, r) := by
  by_cases h0 : n = 0
  · subst h0
    show parseNatChars ('0' :: r) 0 = (0, r)
    rw [show parseNatChars ('0' :: r) 0 = parseNatChars r 0 from rfl]
    exact hstop 0
  · rw [natChars, if_neg h0]
    rw [parseNatChars_digits _ _ _ (fun d hd => Nat.digits_lt_base (by norm_num)
      (List.mem_reverse.mp hd))]
    rw [hstop]
    rw [foldl_reverse_digits]
    simp [Nat.ofDigits_digits]

/-- The claims parser inverts the claims serializer. -/
theorem deserializeClaims_serializeClaims (cl : JwtClaims) :
    deserializeClaims (serializeClaims cl) = some cl := by
  have e1 : serializeClaims cl =
      (lbrace :: keyChars "_id" ++ ['"']) ++ (escapeJson cl._id.data ++ '"' ::
        ((',' :: keyChars "email" ++ ['"']) ++ (escapeJson cl.email.data ++ '"' ::
          ((',' :: keyChars "name" ++ ['"']) ++ (escapeJson cl.name.data ++ '"' ::
            ((',' :: keyChars "exp") ++ (natChars cl.exp ++
              ((',' :: keyChars "iat") ++ (natChars cl.iat ++ [rbrace]))))))))) := by
    simp [serializeClaims, keyChars, jsonStrChars, List.append_assoc]
  have hiat : parseNatChars (natChars cl.iat ++ [rbrace]) 0 =
      (cl.iat, [rbrace]) :=
    parseNatChars_natChars _ _ (fun acc => rfl)
  have hexp : parseNatChars (natChars cl.exp ++
      ((',' :: keyChars "iat") ++ (natChars cl.iat ++ [rbrace]))) 0 =
      (cl.exp, (',' :: keyChars "iat") ++ (natChars cl.iat ++ [rbrace])) :=
    parseNatChars_natChars _ _ (fun acc => rfl)
  rw [e1]
  simp only [deserializeClaims, parseLit_self, parseStrBody_escapeJson, hexp, hiat]
  simp +decide

/-- `escapeJson` preserves a character bound that admits the backslash. -/
theorem escapeJson_all {l : List Char} (h : l.all byteOk = true) :
    (escapeJson l).all byteOk = true := by
  induction l with
  | nil => rfl
  | cons c cs ih =>
    simp only [List.all_cons, Bool.and_eq_true] at h
    by_cases hc : c = '"' ∨ c = bslash
    · simp only [escapeJson, if_pos hc, List.all_cons, Bool.and_eq_true]
      exact ⟨by decide, h.1, ih h.2⟩
    · simp only [escapeJson, if_neg hc, List.all_cons, Bool.and_eq_true]
      exact ⟨h.1, ih h.2⟩

/-- Digit characters are one-byte characters. -/
theorem byteOk_digitChar (d : Nat) : byteOk (digitChar d) = true := by
  simp only [byteOk, toNat_digitChar]
  simp
  omega

/-- Decimal renderings consist of one-byte characters. -/
theorem natChars_all (n : Nat) : (natChars n).all byteOk = true := by
  by_cases h0 : n = 0
  · subst h0
    rfl
  · rw [natChars, if_neg h0]
    rw [List.all_eq_true]
    intro c hc
    obtain ⟨d, _, rfl⟩ := List.mem_map.mp hc
    exact byteOk_digitChar d

/-- Serialized claims consist of one-byte characters when the identity
fields do. -/
theorem serializeClaims_all (cl : JwtClaims) (h1 : byteSafe cl._id = true)
    (h2 : byteSafe cl.email = true) (h3 : byteSafe cl.name = true) :
    (serializeClaims cl).all byteOk = true := by
  simp only [byteSafe] at h1 h2 h3
  simp +decide [serializeClaims, keyChars, jsonStrChars, escapeJson_all h1,
    escapeJson_all h2, escapeJson_all h3, natChars_all]

/-- Composing the code-point maps is the identity on characters. -/
theorem map_ofNat_toNat (l : List Char) : (l.map Char.toNat).map Char.ofNat = l := by
  induction l with
  | nil => rfl
  | cons c cs ih => simp [ih, Char.ofNat_toNat]

/-- One-byte characters map to bytes below 256. -/
theorem map_toNat_lt {l : List Char} (h : l.all byteOk = true) :
    ∀ b ∈ l.map Char.toNat, b < 256 := by
  intro b hb
  obtain ⟨c, hc, rfl⟩ := List.mem_map.mp hb
  have := List.all_eq_true.mp h c hc
  simpa [byteOk] using this

/-- Encoded segments never contain the dot separator. -/
theorem b64urlEncode_no_dot {bs : List Nat} : ∀ c ∈ b64urlEncode bs, c ≠ '.' := by
  intro c hc
  obtain ⟨n, rfl⟩ := mem_b64urlEncode hc
  exact b64Char_ne_dot n

/-- Encoded segments consist of alphabet characters. -/
theorem b64urlEncode_all_b64 {bs : List Nat} :
    ∀ c ∈ b64urlEncode bs, isB64UrlChar c = true := by
  intro c hc
  obtain ⟨n, rfl⟩ := mem_b64urlEncode hc
  exact isB64UrlChar_b64Char n

/-- `generateJwt` is the signing of the serialized `claimsOf` payload. -/
theorem generateJwt_eq (hmac : String → String → List Nat) (u : UserRecord)
    (secret : String) (nowMs : Nat) :
    generateJwt hmac u secret nowMs =
      ⟨jwtSignChars hmac (serializeClaims (claimsOf u nowMs)) secret⟩ := by
  have h : (nowMs + 7 * 86400000) / 1000 = nowMs / 1000 + 604800 := by omega
  simp [generateJwt, jwtSignObject, claimsOf, h]

/-- The character data of a minted token, as three dot-separated segments. -/
theorem generateJwt_data (hmac : String → String → List Nat) (u : UserRecord)
    (secret : String) (nowMs : Nat) :
    (generateJwt hmac u secret nowMs).data =
      jwtHeaderSeg ++ '.' :: (jwtPayloadSeg (claimsOf u nowMs) ++
        '.' :: jwtSigSeg hmac (claimsOf u nowMs) secret) := by
  rw [generateJwt_eq]
  show jwtSignChars hmac (serializeClaims (claimsOf u nowMs)) secret = _
  simp [jwtSignChars, jwtHeaderSeg, jwtPayloadSeg, jwtSigSeg, List.append_assoc]

/-- Splitting a minted token yields exactly its three segments. -/
theorem splitDots_generateJwt (hmac : String → String → List Nat) (u : UserRecord)
    (secret : String) (nowMs : Nat) :
    splitDots (generateJwt hmac u secret nowMs).data =
      [jwtHeaderSeg, jwtPayloadSeg (claimsOf u nowMs),
        jwtSigSeg hmac (claimsOf u nowMs) secret] := by
  rw [generateJwt_data]
  have hh : ∀ c ∈ jwtHeaderSeg, c ≠ '.' := fun c hc => b64urlEncode_no_dot c hc
  have hp : ∀ c ∈ jwtPayloadSeg (claimsOf u nowMs), c ≠ '.' :=
    fun c hc => b64urlEncode_no_dot c hc
  have hs : ∀ c ∈ jwtSigSeg hmac (claimsOf u nowMs) secret, c ≠ '.' :=
    fun c hc => b64urlEncode_no_dot c hc
  rw [splitDots_append_dot hh, splitDots_append_dot hp, splitDots_no_dot hs]

/-- Verifying a freshly minted token at issuance time succeeds and returns
exactly the claims that were signed. -/
theorem jwtVerify_generateJwt (hmac : String → String → List Nat)
    (u : UserRecord) (secret : String) (nowMs : Nat)
    (h1 : byteSafe u._id = true) (h2 : byteSafe u.email = true)
    (h3 : byteSafe u.name = true) :
    jwtVerify hmac (generateJwt hmac u secret nowMs) secret (nowMs / 1000) =
      some (claimsOf u nowMs) := by
  have hall : (serializeClaims (claimsOf u nowMs)).all byteOk = true :=
    serializeClaims_all (claimsOf u nowMs) h1 h2 h3
  rw [jwtVerify, splitDots_generateJwt]
  simp only
  rw [if_pos (show jwtSigSeg hmac (claimsOf u nowMs) secret =
    b64urlEncode (hmac secret
      ⟨jwtHeaderSeg ++ '.' :: jwtPayloadSeg (claimsOf u nowMs)⟩) from rfl)]
  rw [show jwtPayloadSeg (claimsOf u nowMs) =
    b64urlEncode ((serializeClaims (claimsOf u nowMs)).map Char.toNat) from rfl]
  rw [b64urlDecode_b64urlEncode (map_toNat_lt hall)]
  simp only
  rw [map_ofNat_toNat, deserializeClaims_serializeClaims]
  simp only
  rw [if_neg (by simp only [claimsOf]; omega)]

/-! ## Claim theorems -/

/-- C1: verifying the very password passed to `setPassword` against the
stored (salt, hash) pair succeeds, and any different password fails
verification whenever the PBKDF2 derivation (at the stored salt and the
fixed iteration/length/digest parameters) is injective. -/
theorem c1_setPassword_validPassword :
    ∀ (pbkdf2 : String → String → Nat → Nat → String → String)
      (rnd : List Nat) (u : UserRecord) (p q : String),
    validPassword pbkdf2 (setPassword pbkdf2 rnd u p) p = true ∧
    (q ≠ p →
      (Function.Injective fun pw => pbkdf2 pw (bytesToHex rnd) 100000 64 "sha512") →
      validPassword pbkdf2 (setPassword pbkdf2 rnd u p) q = false) := by
  intro pbkdf2 rnd u p q
  constructor
  · simp [validPassword, setPassword]
  · intro hne hinj
    simp only [validPassword, setPassword]
    rw [beq_eq_false_iff_ne]
    intro h
    exact hne (hinj h.symm)

/-- Witness for C1 at a concrete derivation function and password pair. -/
theorem c1_witness :
    validPassword (fun pw _ _ _ _ => pw)
      (setPassword (fun pw _ _ _ _ => pw) [] ⟨"i", "e", "n", "", ""⟩ "alpha")
      "alpha" = true ∧
    validPassword (fun pw _ _ _ _ => pw)
      (setPassword (fun pw _ _ _ _ => pw) [] ⟨"i", "e", "n", "", ""⟩ "alpha")
      "beta" = false :=
  ⟨(c1_setPassword_validPassword (fun pw _ _ _ _ => pw) [] ⟨"i", "e", "n", "", ""⟩
      "alpha" "beta").1,
   (c1_setPassword_validPassword (fun pw _ _ _ _ => pw) [] ⟨"i", "e", "n", "", ""⟩
      "alpha" "beta").2 (by decide) (fun a b h => h)⟩

/-- C2 (amended): a minted token is the compact HS256 JWT
`base64url(header).base64url(claims).base64url(mac)` — three dot-separated
base64url segments signed with the process-wide secret over
`header.payload` — whose claims are exactly `{_id, email, name, exp, iat}`:
the four payload fields plus the default `iat` claim `jsonwebtoken` adds
(no `noTimestamp` option is passed), with `exp` the issuance time plus
7 days and `iat` the issuance time, in whole seconds; validating the token
immediately after issuance yields exactly those claims.  (The claim as
stated, with a payload of exactly the four fields `{_id, email, name, exp}`,
is refuted by `c2_iat_counterexample`.) -/
theorem c2_generateJwt_compact_roundtrip :
    ∀ (hmac : String → String → List Nat) (u : UserRecord)
      (secret : String) (nowMs : Nat),
    byteSafe u._id = true → byteSafe u.email = true → byteSafe u.name = true →
    (generateJwt hmac u secret nowMs).data =
      jwtHeaderSeg ++ '.' :: (jwtPayloadSeg (claimsOf u nowMs) ++
        '.' :: jwtSigSeg hmac (claimsOf u nowMs) secret) ∧
    splitDots (generateJwt hmac u secret nowMs).data =
      [jwtHeaderSeg, jwtPayloadSeg (claimsOf u nowMs),
        jwtSigSeg hmac (claimsOf u nowMs) secret] ∧
    (∀ c ∈ (generateJwt hmac u secret nowMs).data,
      isB64UrlChar c = true ∨ c = '.') ∧
    claimsOf u nowMs =
      ⟨u._id, u.email, u.name, nowMs / 1000 + 7 * 86400, nowMs / 1000⟩ ∧
    jwtVerify hmac (generateJwt hmac u secret nowMs) secret (nowMs / 1000) =
      some (claimsOf u nowMs) := by
  intro hmac u secret nowMs h1 h2 h3
  refine ⟨generateJwt_data hmac u secret nowMs,
    splitDots_generateJwt hmac u secret nowMs, ?_, rfl,
    jwtVerify_generateJwt hmac u secret nowMs h1 h2 h3⟩
  intro c hc
  rw [generateJwt_data] at hc
  rcases List.mem_append.mp hc with h | h
  · exact Or.inl (b64urlEncode_all_b64 c h)
  rcases List.mem_cons.mp h with rfl | h
  · exact Or.inr rfl
  rcases List.mem_append.mp h with h | h
  · exact Or.inl (b64urlEncode_all_b64 c h)
  rcases List.mem_cons.mp h with rfl | h
  · exact Or.inr rfl
  · exact Or.inl (b64urlEncode_all_b64 c h)

/-- Witness for C2 at a concrete user, secret, clock and MAC function. -/
theorem c2_witness :
    byteSafe (UserRecord._id ⟨"u1", "ann@example.com", "Ann", "", ""⟩) = true ∧
    byteSafe (UserRecord.email ⟨"u1", "ann@example.com", "Ann", "", ""⟩) = true ∧
    byteSafe (UserRecord.name ⟨"u1", "ann@example.com", "Ann", "", ""⟩) = true ∧
    ((generateJwt (fun _ _ => [7, 200, 33]) ⟨"u1", "ann@example.com", "Ann", "", ""⟩
        "s3cret" 1700000000000).data =
      jwtHeaderSeg ++ '.' ::
        (jwtPayloadSeg (claimsOf ⟨"u1", "ann@example.com", "Ann", "", ""⟩ 1700000000000) ++
          '.' :: jwtSigSeg (fun _ _ => [7, 200, 33])
            (claimsOf ⟨"u1", "ann@example.com", "Ann", "", ""⟩ 1700000000000) "s3cret") ∧
    splitDots (generateJwt (fun _ _ => [7, 200, 33])
        ⟨"u1", "ann@example.com", "Ann", "", ""⟩ "s3cret" 1700000000000).data =
      [jwtHeaderSeg,
        jwtPayloadSeg (claimsOf ⟨"u1", "ann@example.com", "Ann", "", ""⟩ 1700000000000),
        jwtSigSeg (fun _ _ => [7, 200, 33])
          (claimsOf ⟨"u1", "ann@example.com", "Ann", "", ""⟩ 1700000000000) "s3cret"] ∧
    (∀ c ∈ (generateJwt (fun _ _ => [7, 200, 33])
        ⟨"u1", "ann@example.com", "Ann", "", ""⟩ "s3cret" 1700000000000).data,
      isB64UrlChar c = true ∨ c = '.') ∧
    claimsOf ⟨"u1", "ann@example.com", "Ann", "", ""⟩ 1700000000000 =
      ⟨"u1", "ann@example.com", "Ann", 1700000000000 / 1000 + 7 * 86400,
        1700000000000 / 1000⟩ ∧
    jwtVerify (fun _ _ => [7, 200, 33])
        (generateJwt (fun _ _ => [7, 200, 33])
          ⟨"u1", "ann@example.com", "Ann", "", ""⟩ "s3cret" 1700000000000)
        "s3cret" (1700000000000 / 1000) =
      some (claimsOf ⟨"u1", "ann@example.com", "Ann", "", ""⟩ 1700000000000)) :=
  ⟨by decide, by decide, by decide,
    c2_generateJwt_compact_roundtrip (fun _ _ => [7, 200, 33])
      ⟨"u1", "ann@example.com", "Ann", "", ""⟩ "s3cret" 1700000000000
      (by decide) (by decide) (by decide)⟩

/-- Counterexample to C2 as stated: the payload of the token minted for a
concrete user is not the serialization of exactly `{_id, email, name, exp}`
(at the claim's own `exp` value), because the signed payload additionally
carries the `iat` key the `jsonwebtoken` library appends by default. -/
theorem c2_iat_counterexample :
    jwtPayloadSeg (claimsOf ⟨"u1", "a@b.c", "Ann", "", ""⟩ 0) ≠
      b64urlEncode ((serializeClaimsSpec "u1" "a@b.c" "Ann" 604800).map
        Char.toNat) ∧
    List.IsInfix (',' :: keyChars "iat")
      (serializeClaims (claimsOf ⟨"u1", "a@b.c", "Ann", "", ""⟩ 0)) := by
  have hd : natChars 604800 = ['6', '0', '4', '8', '0', '0'] := by
    rw [natChars, if_neg (by norm_num)]
    rw [show Nat.digits 10 604800 = [0, 0, 8, 4, 0, 6] from by
      simp [Nat.digits_def']]
    decide
  have hcl : claimsOf ⟨"u1", "a@b.c", "Ann", "", ""⟩ 0 =
      ⟨"u1", "a@b.c", "Ann", 604800, 0⟩ := rfl
  constructor
  · rw [hcl]
    simp only [jwtPayloadSeg, serializeClaims, serializeClaimsSpec, hd]
    decide
  · rw [hcl]
    simp only [serializeClaims, hd]
    decide

/-- C3: a login request carrying both fields whose email matches no stored
record is rejected: the strategy reports "Incorrect username.", the
controller answers 401, and the body carries no token. -/
theorem c3_login_unknown_email :
    ∀ (pbkdf2 : String → String → Nat → Nat → String → String)
      (hmac : String → String → List Nat) (secret : String) (nowMs : Nat)
      (store : List UserRecord) (req : AuthRequest) (e p : String),
    req.email = some e → req.password = some p → e ≠ "" → p ≠ "" →
    findOne store e = none →
    login pbkdf2 hmac secret nowMs store req =
      ⟨401, ResBody.message "Incorrect username."⟩ ∧
    hasToken (login pbkdf2 hmac secret nowMs store req).body = false := by
  intro pbkdf2 hmac secret nowMs store req e p he hp hne hnp hfind
  have h : login pbkdf2 hmac secret nowMs store req =
      ⟨401, ResBody.message "Incorrect username."⟩ := by
    rw [login, he, hp]
    rw [if_neg (by simp [truthyStr, hne, hnp])]
    simp only [Option.getD_some, localStrategy, hfind]
  exact ⟨h, by rw [h]; rfl⟩

/-- Witness for C3 with an empty store. -/
theorem c3_witness :
    (AuthRequest.email ⟨none, some "ann@example.com", some "pw"⟩ = some "ann@example.com" ∧
      AuthRequest.password ⟨none, some "ann@example.com", some "pw"⟩ = some "pw" ∧
      "ann@example.com" ≠ "" ∧ "pw" ≠ "" ∧
      findOne [] "ann@example.com" = none) ∧
    login (fun pw _ _ _ _ => pw) (fun _ _ => []) "s" 0 []
        ⟨none, some "ann@example.com", some "pw"⟩ =
      ⟨401, ResBody.message "Incorrect username."⟩ ∧
    hasToken (login (fun pw _ _ _ _ => pw) (fun _ _ => []) "s" 0 []
        ⟨none, some "ann@example.com", some "pw"⟩).body = false :=
  ⟨⟨rfl, rfl, by decide, by decide, rfl⟩,
    c3_login_unknown_email (fun pw _ _ _ _ => pw) (fun _ _ => []) "s" 0 []
      ⟨none, some "ann@example.com", some "pw"⟩ "ann@example.com" "pw"
      rfl rfl (by decide) (by decide) rfl⟩

/-- C4: `setPassword` stores the hex encoding of the 16 fresh random bytes
(128 bits) as the salt — a 32-character hex string — and the PBKDF2 hash of
the plaintext with that salt at 100000 iterations, 64-byte output, SHA-512;
the `_id`, `email` and `name` fields are untouched. -/
theorem c4_setPassword_fields :
    ∀ (pbkdf2 : String → String → Nat → Nat → String → String)
      (rnd : List Nat) (u : UserRecord) (p : String),
    rnd.length = 16 →
    (setPassword pbkdf2 rnd u p).salt = bytesToHex rnd ∧
    (setPassword pbkdf2 rnd u p).salt.length = 32 ∧
    (setPassword pbkdf2 rnd u p).hash =
      pbkdf2 p (bytesToHex rnd) 100000 64 "sha512" ∧
    (setPassword pbkdf2 rnd u p)._id = u._id ∧
    (setPassword pbkdf2 rnd u p).email = u.email ∧
    (setPassword pbkdf2 rnd u p).name = u.name := by
  intro pbkdf2 rnd u p hlen
  have hhex : ∀ bs : List Nat, (bytesToHexChars bs).length = 2 * bs.length := by
    intro bs
    induction bs with
    | nil => rfl
    | cons b bs ih => simp [bytesToHexChars, ih]; ring
  refine ⟨rfl, ?_, rfl, rfl, rfl, rfl⟩
  show (bytesToHex rnd).length = 32
  rw [show (bytesToHex rnd).length = (bytesToHexChars rnd).length from rfl]
  rw [hhex, hlen]

/-- Witness for C4 at sixteen zero bytes. -/
theorem c4_witness :
    (List.replicate 16 0).length = 16 ∧
    (setPassword (fun pw s _ _ _ => pw ++ s) (List.replicate 16 0)
      ⟨"i", "e", "n", "", ""⟩ "pw").salt = bytesToHex (List.replicate 16 0) ∧
    (setPassword (fun pw s _ _ _ => pw ++ s) (List.replicate 16 0)
      ⟨"i", "e", "n", "", ""⟩ "pw").salt.length = 32 ∧
    (setPassword (fun pw s _ _ _ => pw ++ s) (List.replicate 16 0)
      ⟨"i", "e", "n", "", ""⟩ "pw").hash =
      (fun pw s _ _ _ => pw ++ s) "pw" (bytesToHex (List.replicate 16 0))
        100000 64 "sha512" ∧
    (setPassword (fun pw s _ _ _ => pw ++ s) (List.replicate 16 0)
      ⟨"i", "e", "n", "", ""⟩ "pw")._id = "i" ∧
    (setPassword (fun pw s _ _ _ => pw ++ s) (List.replicate 16 0)
      ⟨"i", "e", "n", "", ""⟩ "pw").email = "e" ∧
    (setPassword (fun pw s _ _ _ => pw ++ s) (List.replicate 16 0)
      ⟨"i", "e", "n", "", ""⟩ "pw").name = "n" :=
  ⟨by decide,
    c4_setPassword_fields (fun pw s _ _ _ => pw ++ s) (List.replicate 16 0)
      ⟨"i", "e", "n", "", ""⟩ "pw" (by decide)⟩

/-- C6: a login request whose email matches a stored record but whose
password fails verification against the stored salt and hash answers 401
with the strategy's info message and no token. -/
theorem c6_login_wrong_password :
    ∀ (pbkdf2 : String → String → Nat → Nat → String → String)
      (hmac : String → String → List Nat) (secret : String) (nowMs : Nat)
      (store : List UserRecord) (req : AuthRequest) (e p : String)
      (u : UserRecord),
    req.email = some e → req.password = some p → e ≠ "" → p ≠ "" →
    findOne store e = some u →
    validPassword pbkdf2 u p = false →
    login pbkdf2 hmac secret nowMs store req =
      ⟨401, ResBody.message "Incorrect password."⟩ ∧
    hasToken (login pbkdf2 hmac secret nowMs store req).body = false := by
  intro pbkdf2 hmac secret nowMs store req e p u he hp hne hnp hfind hbad
  have h : login pbkdf2 hmac secret nowMs store req =
      ⟨401, ResBody.message "Incorrect password."⟩ := by
    rw [login, he, hp]
    rw [if_neg (by simp [truthyStr, hne, hnp])]
    simp only [Option.getD_some, localStrategy, hfind, hbad]
    rfl
  exact ⟨h, by rw [h]; rfl⟩

/-- Witness for C6 at a one-record store and a mismatched password. -/
theorem c6_witness :
    (AuthRequest.email ⟨none, some "ann@example.com", some "wrong"⟩ =
        some "ann@example.com" ∧
      AuthRequest.password ⟨none, some "ann@example.com", some "wrong"⟩ = some "wrong" ∧
      "ann@example.com" ≠ "" ∧ "wrong" ≠ "" ∧
      findOne [⟨"u1", "ann@example.com", "Ann", "right|salt", "salt"⟩]
        "ann@example.com" = some ⟨"u1", "ann@example.com", "Ann", "right|salt", "salt"⟩ ∧
      validPassword (fun pw s _ _ _ => pw ++ "|" ++ s)
        ⟨"u1", "ann@example.com", "Ann", "right|salt", "salt"⟩ "wrong" = false) ∧
    login (fun pw s _ _ _ => pw ++ "|" ++ s) (fun _ _ => []) "s" 0
        [⟨"u1", "ann@example.com", "Ann", "right|salt", "salt"⟩]
        ⟨none, some "ann@example.com", some "wrong"⟩ =
      ⟨401, ResBody.message "Incorrect password."⟩ ∧
    hasToken (login (fun pw s _ _ _ => pw ++ "|" ++ s) (fun _ _ => []) "s" 0
        [⟨"u1", "ann@example.com", "Ann", "right|salt", "salt"⟩]
        ⟨none, some "ann@example.com", some "wrong"⟩).body = false :=
  ⟨⟨rfl, rfl, by decide, by decide, by decide, by decide⟩,
    c6_login_wrong_password (fun pw s _ _ _ => pw ++ "|" ++ s) (fun _ _ => []) "s" 0
      [⟨"u1", "ann@example.com", "Ann", "right|salt", "salt"⟩]
      ⟨none, some "ann@example.com", some "wrong"⟩ "ann@example.com" "wrong"
      ⟨"u1", "ann@example.com", "Ann", "right|salt", "salt"⟩
      rfl rfl (by decide) (by decide) (by decide) (by decide)⟩

/-- C7: a registration request missing (or carrying an empty) name, email
or password, and a login request missing email or password, are answered
400 "All fields required" with no token; the store is neither consulted
(the response is the same for every store) nor modified. -/
theorem c7_missing_fields_reject :
    ∀ (pbkdf2 : String → String → Nat → Nat → String → String)
      (hmac : String → String → List Nat) (rnd : List Nat) (secret : String)
      (nowMs : Nat) (freshId : String) (store : List UserRecord)
      (req : AuthRequest),
    ((truthyStr req.name = false ∨ truthyStr req.email = false ∨
        truthyStr req.password = false) →
      register pbkdf2 hmac rnd secret nowMs freshId store req =
        (⟨400, ResBody.message "All fields required"⟩, store) ∧
      hasToken (register pbkdf2 hmac rnd secret nowMs freshId store req).1.body =
        false) ∧
    ((truthyStr req.email = false ∨ truthyStr req.password = false) →
      login pbkdf2 hmac secret nowMs store req =
        ⟨400, ResBody.message "All fields required"⟩ ∧
      hasToken (login pbkdf2 hmac secret nowMs store req).body = false) := by
  intro pbkdf2 hmac rnd secret nowMs freshId store req
  constructor
  · intro h
    have hr : register pbkdf2 hmac rnd secret nowMs freshId store req =
        (⟨400, ResBody.message "All fields required"⟩, store) := by
      rw [register, if_pos]
      rcases h with h | h | h <;> simp [h]
    exact ⟨hr, by rw [hr]; rfl⟩
  · intro h
    have hl : login pbkdf2 hmac secret nowMs store req =
        ⟨400, ResBody.message "All fields required"⟩ := by
      rw [login, if_pos]
      rcases h with h | h <;> simp [h]
    exact ⟨hl, by rw [hl]; rfl⟩

/-- Witness for C7 at a request with a missing password and an empty email. -/
theorem c7_witness :
    ((truthyStr (AuthRequest.name ⟨some "Ann", some "", none⟩) = false ∨
        truthyStr (AuthRequest.email ⟨some "Ann", some "", none⟩) = false ∨
        truthyStr (AuthRequest.password ⟨some "Ann", some "", none⟩) = false) ∧
      (truthyStr (AuthRequest.email ⟨some "Ann", some "", none⟩) = false ∨
        truthyStr (AuthRequest.password ⟨some "Ann", some "", none⟩) = false)) ∧
    (register (fun pw _ _ _ _ => pw) (fun _ _ => []) [] "s" 0 "id"
        [⟨"u1", "e", "n", "h", "s"⟩] ⟨some "Ann", some "", none⟩ =
      (⟨400, ResBody.message "All fields required"⟩, [⟨"u1", "e", "n", "h", "s"⟩]) ∧
      hasToken (register (fun pw _ _ _ _ => pw) (fun _ _ => []) [] "s" 0 "id"
        [⟨"u1", "e", "n", "h", "s"⟩] ⟨some "Ann", some "", none⟩).1.body = false) ∧
    (login (fun pw _ _ _ _ => pw) (fun _ _ => []) "s" 0
        [⟨"u1", "e", "n", "h", "s"⟩] ⟨some "Ann", some "", none⟩ =
      ⟨400, ResBody.message "All fields required"⟩ ∧
      hasToken (login (fun pw _ _ _ _ => pw) (fun _ _ => []) "s" 0
        [⟨"u1", "e", "n", "h", "s"⟩] ⟨some "Ann", some "", none⟩).body = false) :=
  ⟨⟨Or.inr (Or.inr (by decide)), Or.inr (by decide)⟩,
    (c7_missing_fields_reject (fun pw _ _ _ _ => pw) (fun _ _ => []) [] "s" 0 "id"
      [⟨"u1", "e", "n", "h", "s"⟩] ⟨some "Ann", some "", none⟩).1
      (Or.inr (Or.inr (by decide))),
    (c7_missing_fields_reject (fun pw _ _ _ _ => pw) (fun _ _ => []) [] "s" 0 "id"
      [⟨"u1", "e", "n", "h", "s"⟩] ⟨some "Ann", some "", none⟩).2
      (Or.inr (by decide))⟩

/-- C9: `tripsList` and `tripsFindByCode` always answer 200 with the
(possibly empty) list of matching documents: a Mongoose `find` resolves to
an array, an array is truthy, so the 404 branch is unreachable. -/
theorem c9_trips_always_200 :
    ∀ (db : List Trip) (code : String),
    tripsList db = ⟨200, TripsBody.trips db⟩ ∧
    tripsFindByCode db code =
      ⟨200, TripsBody.trips (db.filter (fun t => t.code == code))⟩ ∧
    (tripsList db).status ≠ 404 ∧ (tripsFindByCode db code).status ≠ 404 := by
  intro db code
  refine ⟨rfl, rfl, ?_, ?_⟩ <;> simp [tripsList, tripsFindByCode, jsTruthyList]

/-- C5: a registration request whose normalized email equals the email of
an already-stored record fails with a 400 store-error response, issues no
token, and writes no second record. -/
theorem c5_register_duplicate_email :
    ∀ (pbkdf2 : String → String → Nat → Nat → String → String)
      (hmac : String → String → List Nat) (rnd : List Nat) (secret : String)
      (nowMs : Nat) (freshId : String) (store : List UserRecord)
      (req : AuthRequest) (n e p : String),
    req.name = some n → req.email = some e → req.password = some p →
    n ≠ "" → e ≠ "" → p ≠ "" →
    store.any (fun w => w.email ==
      (preSave (mkRegUser pbkdf2 rnd freshId n e p)).email) = true →
    (register pbkdf2 hmac rnd secret nowMs freshId store req).1.status = 400 ∧
    hasToken (register pbkdf2 hmac rnd secret nowMs freshId store req).1.body =
      false ∧
    (register pbkdf2 hmac rnd secret nowMs freshId store req).2 = store := by
  intro pbkdf2 hmac rnd secret nowMs freshId store req n e p hn he hp hnn hne hnp hdup
  rw [register, if_neg (by simp [truthyStr, hn, he, hp, hnn, hne, hnp])]
  simp only [hn, he, hp, Option.getD_some]
  simp only [save]
  by_cases hv : isEmailModel (mkRegUser pbkdf2 rnd freshId n e p).email.data = true
  · rw [if_neg (by simp [hv]), if_pos hdup]
    exact ⟨rfl, rfl, rfl⟩
  · rw [if_pos (by simp [Bool.not_eq_true] at hv; simp [hv])]
    exact ⟨rfl, rfl, rfl⟩

/-- Witness for C5: re-registering an already-stored normalized email. -/
theorem c5_witness :
    (AuthRequest.name ⟨some "Ann", some "ann@example.com", some "pw"⟩ = some "Ann" ∧
      AuthRequest.email ⟨some "Ann", some "ann@example.com", some "pw"⟩ =
        some "ann@example.com" ∧
      AuthRequest.password ⟨some "Ann", some "ann@example.com", some "pw"⟩ =
        some "pw" ∧
      ([⟨"u0", "ann@example.com", "Ann", "h", "s"⟩] : List UserRecord).any
        (fun w => w.email ==
          (preSave (mkRegUser (fun pw _ _ _ _ => pw) [] "u1" "Ann"
            "ann@example.com" "pw")).email) = true) ∧
    (register (fun pw _ _ _ _ => pw) (fun _ _ => []) [] "sec" 0 "u1"
        [⟨"u0", "ann@example.com", "Ann", "h", "s"⟩]
        ⟨some "Ann", some "ann@example.com", some "pw"⟩).1.status = 400 ∧
    hasToken (register (fun pw _ _ _ _ => pw) (fun _ _ => []) [] "sec" 0 "u1"
        [⟨"u0", "ann@example.com", "Ann", "h", "s"⟩]
        ⟨some "Ann", some "ann@example.com", some "pw"⟩).1.body = false ∧
    (register (fun pw _ _ _ _ => pw) (fun _ _ => []) [] "sec" 0 "u1"
        [⟨"u0", "ann@example.com", "Ann", "h", "s"⟩]
        ⟨some "Ann", some "ann@example.com", some "pw"⟩).2 =
      [⟨"u0", "ann@example.com", "Ann", "h", "s"⟩] :=
  ⟨⟨rfl, rfl, rfl, by decide⟩,
    c5_register_duplicate_email (fun pw _ _ _ _ => pw) (fun _ _ => []) [] "sec" 0 "u1"
      [⟨"u0", "ann@example.com", "Ann", "h", "s"⟩]
      ⟨some "Ann", some "ann@example.com", some "pw"⟩ "Ann" "ann@example.com" "pw"
      rfl rfl rfl (by decide) (by decide) (by decide) (by decide)⟩

/-- ASCII lower-casing is idempotent. -/
theorem asciiLowerChar_idem (c : Char) :
    asciiLowerChar (asciiLowerChar c) = asciiLowerChar c := by
  unfold asciiLowerChar
  by_cases h : 65 ≤ c.toNat ∧ c.toNat ≤ 90
  · rw [if_pos h]
    have ht : (Char.ofNat (c.toNat + 32)).toNat = c.toNat + 32 :=
      toNat_charOfNat (by omega)
    rw [if_neg (by rw [ht]; omega)]
  · rw [if_neg h, if_neg h]

/-- Characters with code point above 32 are not JavaScript whitespace. -/
theorem isWs_false_of_gt (d : Char) (h : 32 < d.toNat) : isWs d = false := by
  simp only [isWs, Bool.or_eq_false_iff, decide_eq_false_iff_not]
  refine ⟨⟨⟨?_, ?_⟩, ?_⟩, ?_⟩ <;>
    (intro hd; subst hd; exact absurd h (by decide))

/-- ASCII lower-casing preserves non-whitespace. -/
theorem isWs_asciiLowerChar {c : Char} (h : isWs c = false) :
    isWs (asciiLowerChar c) = false := by
  unfold asciiLowerChar
  by_cases hr : 65 ≤ c.toNat ∧ c.toNat ≤ 90
  · rw [if_pos hr]
    exact isWs_false_of_gt _ (by rw [toNat_charOfNat (by omega)]; omega)
  · rw [if_neg hr]
    exact h

/-- Every character of a normalized email is the at-sign or comes from the
lower-cased input. -/
theorem mem_normalizeEmailChars {c : Char} {l : List Char}
    (h : c ∈ normalizeEmailChars l) : c = '@' ∨ c ∈ asciiLowerChars l := by
  unfold normalizeEmailChars at h
  by_cases hat : (asciiLowerChars l).contains '@'
  · rw [if_pos hat] at h
    by_cases hg : ((asciiLowerChars l).reverse.takeWhile (fun c => c ≠ '@')).reverse =
        "gmail.com".data
    · rw [if_pos hg] at h
      rcases List.mem_append.mp h with h | h
      · exact Or.inr (List.mem_of_mem_take (List.mem_of_mem_filter h))
      · rcases List.mem_cons.mp h with rfl | h
        · exact Or.inl rfl
        · exact Or.inr (List.mem_reverse.mp
            ((List.takeWhile_sublist _).mem (List.mem_reverse.mp h)))
    · rw [if_neg hg] at h
      rcases List.mem_append.mp h with h | h
      · exact Or.inr (List.mem_of_mem_take h)
      · rcases List.mem_cons.mp h with rfl | h
        · exact Or.inl rfl
        · exact Or.inr (List.mem_reverse.mp
            ((List.takeWhile_sublist _).mem (List.mem_reverse.mp h)))
  · rw [if_neg hat] at h
    exact Or.inr h

/-- A pointwise-fixed map is the identity. -/
theorem map_eq_self_of_fixed {f : Char → Char} {m : List Char}
    (h : ∀ c ∈ m, f c = c) : m.map f = m := by
  induction m with
  | nil => rfl
  | cons c cs ih => simp [h c (by simp), ih (fun x hx => h x (by simp [hx]))]

/-- Normalized emails are fixed points of lower-casing. -/
theorem asciiLower_normalizeEmail (l : List Char) :
    asciiLowerChars (normalizeEmailChars l) = normalizeEmailChars l := by
  apply map_eq_self_of_fixed
  intro c hc
  rcases mem_normalizeEmailChars hc with rfl | hc
  · decide
  · obtain ⟨d, _, rfl⟩ := List.mem_map.mp hc
    exact asciiLowerChar_idem d

/-- Normalizing a whitespace-free email yields a whitespace-free string. -/
theorem isWs_normalizeEmail {l : List Char} (h : ∀ c ∈ l, isWs c = false) :
    ∀ c ∈ normalizeEmailChars l, isWs c = false := by
  intro c hc
  rcases mem_normalizeEmailChars hc with rfl | hc
  · decide
  · obtain ⟨d, hd, rfl⟩ := List.mem_map.mp hc
    exact isWs_asciiLowerChar (h d hd)

/-- Dropping leading whitespace from a whitespace-free list is the identity. -/
theorem dropWhile_isWs_eq_self {m : List Char} (h : ∀ c ∈ m, isWs c = false) :
    m.dropWhile isWs = m := by
  cases m with
  | nil => rfl
  | cons c cs => simp [List.dropWhile, h c (by simp)]

/-- A whitespace-free list is already trimmed. -/
theorem trimChars_eq_self {m : List Char} (h : ∀ c ∈ m, isWs c = false) :
    trimChars m = m := by
  unfold trimChars
  rw [dropWhile_isWs_eq_self h]
  rw [dropWhile_isWs_eq_self (fun c hc => h c (List.mem_reverse.mp hc))]
  exact List.reverse_reverse m

/-- C8: every record the in-scope operations persist satisfies the store
invariant: the email is lower-cased and trimmed and the name is the
HTML-escape of a trimmed input; registration (the only creating operation)
establishes the invariant and never breaks it. -/
theorem c8_store_invariant :
    ∀ (pbkdf2 : String → String → Nat → Nat → String → String)
      (hmac : String → String → List Nat) (rnd : List Nat) (secret : String)
      (nowMs : Nat) (freshId : String) (store : List UserRecord)
      (req : AuthRequest),
    (∀ u ∈ store, GoodUser u) →
    ∀ u ∈ (register pbkdf2 hmac rnd secret nowMs freshId store req).2,
      GoodUser u := by
  intro pbkdf2 hmac rnd secret nowMs freshId store req hstore u hu
  by_cases hc : (!truthyStr req.name || !truthyStr req.email ||
      !truthyStr req.password) = true
  · rw [register, if_pos hc] at hu
    exact hstore u hu
  · have hreg : register pbkdf2 hmac rnd secret nowMs freshId store req =
        ((match save store (mkRegUser pbkdf2 rnd freshId (req.name.getD "")
            (req.email.getD "") (req.password.getD "")) with
          | SaveResult.ok store2 =>
            (⟨200, ResBody.token (generateJwt hmac (mkRegUser pbkdf2 rnd freshId
              (req.name.getD "") (req.email.getD "") (req.password.getD ""))
              secret nowMs)⟩, store2)
          | SaveResult.validationError =>
            (⟨400, ResBody.jsError "ValidationError"⟩, store)
          | SaveResult.duplicateKeyError =>
            (⟨400, ResBody.jsError "E11000 duplicate key error"⟩, store)) :
          HttpResponse × List UserRecord) := by
      rw [register, if_neg hc]
    rw [hreg] at hu
    cases hsave : save store (mkRegUser pbkdf2 rnd freshId (req.name.getD "")
        (req.email.getD "") (req.password.getD "")) with
    | ok store2 =>
      rw [hsave] at hu
      have hu2 : u ∈ store2 := hu
      simp only [save] at hsave
      split_ifs at hsave with h1 h2
      injection hsave with h3
      subst h3
      rcases List.mem_append.mp hu2 with h | h
      · exact hstore u h
      · have hu' : u = preSave (mkRegUser pbkdf2 rnd freshId (req.name.getD "")
            (req.email.getD "") (req.password.getD "")) := by simpa using h
        subst hu'
        have hnws : ∀ c ∈ (mkRegUser pbkdf2 rnd freshId (req.name.getD "")
            (req.email.getD "") (req.password.getD "")).email.data,
            isWs c = false := by
          have hval : isEmailModel (mkRegUser pbkdf2 rnd freshId (req.name.getD "")
              (req.email.getD "") (req.password.getD "")).email.data = true := by
            simpa using h1
          simp only [isEmailModel, Bool.and_eq_true, Bool.not_eq_true',
            List.any_eq_false] at hval
          intro c hc
          exact Bool.not_eq_true _ ▸ Bool.eq_false_iff.mpr (hval.1.1.2 c hc)
        exact ⟨asciiLower_normalizeEmail _,
          trimChars_eq_self (isWs_normalizeEmail hnws), _, rfl⟩
    | validationError =>
      rw [hsave] at hu
      exact hstore u hu
    | duplicateKeyError =>
      rw [hsave] at hu
      exact hstore u hu

/-- Witness for C8 starting from the empty store. -/
theorem c8_witness :
    (∀ u ∈ ([] : List UserRecord), GoodUser u) ∧
    (∀ u ∈ (register (fun pw _ _ _ _ => pw) (fun _ _ => []) [] "sec" 0 "u1" []
        ⟨some " Ann<b> ", some " Ann@Example.com ", some "pw"⟩).2, GoodUser u) :=
  ⟨by simp,
    c8_store_invariant (fun pw _ _ _ _ => pw) (fun _ _ => []) [] "sec" 0 "u1" []
      ⟨some " Ann<b> ", some " Ann@Example.com ", some "pw"⟩ (by simp)⟩

/-- C10: in a successful registration the token is minted from the user
document as it stands before `save`, so its name/email claims are the
pre-sanitization values, while the persisted record holds the pre-save
hook's output; whenever the hook actually rewrites the name (HTML-escapable
characters) or the email (the normalizer rewrites it), the persisted field
differs from the one embedded in the returned token. -/
theorem c10_register_token_presanitized :
    ∀ (pbkdf2 : String → String → Nat → Nat → String → String)
      (hmac : String → String → List Nat) (rnd : List Nat) (secret : String)
      (nowMs : Nat) (freshId : String) (store : List UserRecord) (n e p : String),
    n ≠ "" → e ≠ "" → p ≠ "" →
    isEmailModel (mkRegUser pbkdf2 rnd freshId n e p).email.data = true →
    store.any (fun w => w.email ==
      (preSave (mkRegUser pbkdf2 rnd freshId n e p)).email) = false →
    register pbkdf2 hmac rnd secret nowMs freshId store ⟨some n, some e, some p⟩ =
      (⟨200, ResBody.token (generateJwt hmac (mkRegUser pbkdf2 rnd freshId n e p)
          secret nowMs)⟩,
        store ++ [preSave (mkRegUser pbkdf2 rnd freshId n e p)]) ∧
    (escapeHtmlChars (trimChars (mkRegUser pbkdf2 rnd freshId n e p).name.data) ≠
        (mkRegUser pbkdf2 rnd freshId n e p).name.data →
      (preSave (mkRegUser pbkdf2 rnd freshId n e p)).name ≠
        (mkRegUser pbkdf2 rnd freshId n e p).name) ∧
    (normalizeEmailChars (mkRegUser pbkdf2 rnd freshId n e p).email.data ≠
        (mkRegUser pbkdf2 rnd freshId n e p).email.data →
      (preSave (mkRegUser pbkdf2 rnd freshId n e p)).email ≠
        (mkRegUser pbkdf2 rnd freshId n e p).email) := by
  intro pbkdf2 hmac rnd secret nowMs freshId store n e p hn he hp hval hdup
  refine ⟨?_, ?_, ?_⟩
  · have hc : ¬(!truthyStr (some n) || !truthyStr (some e) ||
        !truthyStr (some p)) = true := by
      simp [truthyStr, hn, he, hp]
    have hsave : save store (mkRegUser pbkdf2 rnd freshId n e p) =
        SaveResult.ok (store ++ [preSave (mkRegUser pbkdf2 rnd freshId n e p)]) := by
      rw [save, if_neg (by simp [hval])]
      simp only [hdup]
      rfl
    have hreg : register pbkdf2 hmac rnd secret nowMs freshId store
        ⟨some n, some e, some p⟩ =
        ((match save store (mkRegUser pbkdf2 rnd freshId n e p) with
          | SaveResult.ok store2 =>
            (⟨200, ResBody.token (generateJwt hmac
              (mkRegUser pbkdf2 rnd freshId n e p) secret nowMs)⟩, store2)
          | SaveResult.validationError =>
            (⟨400, ResBody.jsError "ValidationError"⟩, store)
          | SaveResult.duplicateKeyError =>
            (⟨400, ResBody.jsError "E11000 duplicate key error"⟩, store)) :
          HttpResponse × List UserRecord) := by
      rw [register, if_neg hc]
      simp only [Option.getD_some]
    rw [hreg, hsave]
  · intro hne heq
    exact hne (congrArg String.data heq)
  · intro hne heq
    exact hne (congrArg String.data heq)

/-- Witness for C10: a name with markup and a dotted gmail address. -/
theorem c10_witness :
    ("<b>Ann" ≠ "" ∧ "a.b@gmail.com" ≠ "" ∧ "pw" ≠ "" ∧
      isEmailModel (mkRegUser (fun pw _ _ _ _ => pw) [] "u1" "<b>Ann"
        "a.b@gmail.com" "pw").email.data = true ∧
      ([] : List UserRecord).any (fun w => w.email ==
        (preSave (mkRegUser (fun pw _ _ _ _ => pw) [] "u1" "<b>Ann"
          "a.b@gmail.com" "pw")).email) = false) ∧
    register (fun pw _ _ _ _ => pw) (fun _ _ => []) [] "sec" 0 "u1" []
        ⟨some "<b>Ann", some "a.b@gmail.com", some "pw"⟩ =
      (⟨200, ResBody.token (generateJwt (fun _ _ => [])
          (mkRegUser (fun pw _ _ _ _ => pw) [] "u1" "<b>Ann" "a.b@gmail.com" "pw")
          "sec" 0)⟩,
        [] ++ [preSave (mkRegUser (fun pw _ _ _ _ => pw) [] "u1" "<b>Ann"
          "a.b@gmail.com" "pw")]) ∧
    (preSave (mkRegUser (fun pw _ _ _ _ => pw) [] "u1" "<b>Ann"
        "a.b@gmail.com" "pw")).name ≠
      (mkRegUser (fun pw _ _ _ _ => pw) [] "u1" "<b>Ann"
        "a.b@gmail.com" "pw").name ∧
    (preSave (mkRegUser (fun pw _ _ _ _ => pw) [] "u1" "<b>Ann"
        "a.b@gmail.com" "pw")).email ≠
      (mkRegUser (fun pw _ _ _ _ => pw) [] "u1" "<b>Ann"
        "a.b@gmail.com" "pw").email :=
  ⟨⟨by decide, by decide, by decide, by decide, rfl⟩,
    (c10_register_token_presanitized (fun pw _ _ _ _ => pw) (fun _ _ => []) [] "sec"
      0 "u1" [] "<b>Ann" "a.b@gmail.com" "pw" (by decide) (by decide) (by decide)
      (by decide) rfl).1,
    (c10_register_token_presanitized (fun pw _ _ _ _ => pw) (fun _ _ => []) [] "sec"
      0 "u1" [] "<b>Ann" "a.b@gmail.com" "pw" (by decide) (by decide) (by decide)
      (by decide) rfl).2.1 (by decide),
    (c10_register_token_presanitized (fun pw _ _ _ _ => pw) (fun _ _ => []) [] "sec"
      0 "u1" [] "<b>Ann" "a.b@gmail.com" "pw" (by decide) (by decide) (by decide)
      (by decide) rfl).2.2 (by decide)⟩
